import Mathlib

/-!
Shallow embedding of `perfkitbenchmarker/vm_util.py` (Python 2): the
thread-backed worker pool (`RunParallelThreads`), the process-backed worker
pool (`RunParallelProcesses`), the retry wrapper (`Retry`), and the call
normalization in `RunThreaded`.  Dynamic Python calls are abstracted by their
observable behaviour: a `TargetArgTuple` carries the `_GetCallString`
rendering of the call and the outcome (return value or captured traceback)
of invoking `target(*args, **kwargs)`.
-/

namespace VmUtil

/-- Observable behaviour of one `target(*args, **kwargs)` invocation:
either it returns a value or it raises, in which case
`traceback.format_exc()` yields the given traceback string. -/
inductive CallOutcome (α : Type) where
  | ok (v : α)
  | exn (tb : String)
deriving DecidableEq, Repr

/-- Return value observed by the pool: the value on success, Python `None`
on an exception. -/
def CallOutcome.returnValue {α : Type} : CallOutcome α → Option α
  | .ok v => some v
  | .exn _ => none

/-- Traceback observed by the pool: `None` on success, the formatted
traceback string on an exception. -/
def CallOutcome.traceback {α : Type} : CallOutcome α → Option String
  | .ok _ => none
  | .exn tb => some tb

/-- Abstraction of one `(target, args, kwargs)` tuple submitted to a pool:
`desc` is the `_GetCallString` rendering used in error messages, `outcome`
the behaviour of invoking it. -/
structure TargetArgTuple (α : Type) where
  desc : String
  outcome : CallOutcome α
deriving DecidableEq, Repr

/-- Outcome of the call at index `i` of the batch (only indices below the
batch length are ever consulted by a valid execution). -/
def outcomeAt {α : Type} (tuples : List (TargetArgTuple α)) (i : Nat) : CallOutcome α :=
  match tuples.get? i with
  | some t => t.outcome
  | none => .exn ""

/-- Call string of the call at index `i` of the batch. -/
def descAt {α : Type} (tuples : List (TargetArgTuple α)) (i : Nat) : String :=
  match tuples.get? i with
  | some t => t.desc
  | none => ""

/-- Embeds `os.linesep` on the POSIX hosts the tool targets. -/
def linesep : String := "\n"

/-- Embeds the message format used at vm_util.py:279 and vm_util.py:547:
`Exception occurred while calling <call string>:<linesep><stacktrace>`. -/
def exceptionMsg (callString stacktrace : String) : String :=
  "Exception occurred while calling " ++ callString ++ ":" ++ linesep ++ stacktrace

/-- Embeds the `ThreadCallResult` namedtuple of vm_util.py:210. -/
structure ThreadCallResult (α : Type) where
  call_id : Nat
  return_value : Option α
  traceback : Option String
deriving DecidableEq, Repr

/-- Embeds `_ExecuteThreadCall` (vm_util.py:214): runs the call and puts a
`ThreadCallResult` on the queue; on success the traceback slot is `None`,
on an exception the return-value slot is `None`. -/
def ExecuteThreadCall {α : Type} (outcome : CallOutcome α) (call_id : Nat) :
    ThreadCallResult α :=
  match outcome with
  | .ok v => ⟨call_id, some v, none⟩
  | .exn tb => ⟨call_id, none, some tb⟩

/-- Controller state of the `RunParallelThreads` loop (vm_util.py:256-293):
the preallocated result array, the accumulated error strings, and the two
counters of the loop. -/
structure ThreadPoolState (α : Type) where
  results : List (Option α)
  error_strings : List String
  active_thread_count : Nat
  next_call_id : Nat
deriving DecidableEq, Repr

/-- Embeds one iteration of the `while active_thread_count` loop of
`RunParallelThreads` (vm_util.py:271-293) after a `ThreadCallResult` has
been taken from the queue: store the result by `call_id`, append an error
string if a traceback was captured, then either retire a worker slot
(`active_thread_count -= 1`) or launch the next call (`next_call_id += 1`). -/
def processQueueItem {α : Type} (tuples : List (TargetArgTuple α))
    (st : ThreadPoolState α) (r : ThreadCallResult α) : ThreadPoolState α :=
  let results := st.results.set r.call_id r.return_value
  let error_strings :=
    match r.traceback with
    | some tb => st.error_strings ++ [exceptionMsg (descAt tuples r.call_id) tb]
    | none => st.error_strings
  if st.next_call_id = tuples.length then
    ⟨results, error_strings, st.active_thread_count - 1, st.next_call_id⟩
  else
    ⟨results, error_strings, st.active_thread_count, st.next_call_id + 1⟩

/-- Runs the controller loop over a given queue-arrival order: `arrivals`
lists the `call_id`s in the order their `ThreadCallResult`s are taken from
the queue (the nondeterminism of thread scheduling). -/
def runThreadLoop {α : Type} (tuples : List (TargetArgTuple α))
    (st : ThreadPoolState α) : List Nat → ThreadPoolState α
  | [] => st
  | i :: rest =>
      runThreadLoop tuples
        (processQueueItem tuples st (ExecuteThreadCall (outcomeAt tuples i) i)) rest

/-- Initial controller state of `RunParallelThreads` (vm_util.py:259-270):
`min(max_concurrency, len(target_arg_tuples))` workers are launched up
front and both counters start at that value. -/
def initThreadPoolState (α : Type) (numCalls max_concurrency : Nat) :
    ThreadPoolState α :=
  let mc := min max_concurrency numCalls
  ⟨List.replicate numCalls none, [], mc, mc⟩

/-- Message of the `errors.VmUtil.ThreadException` raised at
vm_util.py:295-297. -/
def threadExceptionMsg (error_strings : List String) : String :=
  "The following exceptions occurred during threaded execution:" ++ linesep ++
    String.intercalate linesep error_strings

/-- Embeds `RunParallelThreads` (vm_util.py:239): runs the batch with the
given queue-arrival order and either raises a `ThreadException` carrying
the accumulated error strings or returns the ordered results. -/
def RunParallelThreads {α : Type} (tuples : List (TargetArgTuple α))
    (max_concurrency : Nat) (arrivals : List Nat) :
    Except (List String) (List (Option α)) :=
  let final := runThreadLoop tuples
    (initThreadPoolState α tuples.length max_concurrency) arrivals
  if final.error_strings.isEmpty then .ok final.results
  else .error final.error_strings

/-- Error string recorded (or not) by the controller for call `i`:
`some` of the formatted message when call `i` raises, `none` when it
succeeds. -/
def errOf {α : Type} (tuples : List (TargetArgTuple α)) (i : Nat) : Option String :=
  ((outcomeAt tuples i).traceback).map (fun tb => exceptionMsg (descAt tuples i) tb)

/-- Indices of the batch whose calls raise (the failure set F), in index
order. -/
def failingIds {α : Type} (tuples : List (TargetArgTuple α)) : List Nat :=
  (List.range tuples.length).filter (fun i => ((outcomeAt tuples i).traceback).isSome)

/-- Error string recorded for a failing call `i`, in closed form. -/
def failMsgAt {α : Type} (tuples : List (TargetArgTuple α)) (i : Nat) : String :=
  exceptionMsg (descAt tuples i) (((outcomeAt tuples i).traceback).getD "")

/-- Embeds the `multiprocessing.managers` `Namespace` slot created per call
in `RunParallelProcesses` (vm_util.py:465-467): both attributes start as
`None`; `_ExecuteProcCall` fills exactly one of them. -/
structure CallResultNamespace (α : Type) where
  return_value : Option α
  traceback : Option String
deriving DecidableEq, Repr

/-- Embeds the result-writing part of `_ExecuteProcCall` (vm_util.py:392-397):
on success only `return_value` is assigned, on an exception only
`traceback` is assigned and `return_value` stays `None`. -/
def ExecuteProcCall {α : Type} (outcome : CallOutcome α) : CallResultNamespace α :=
  match outcome with
  | .ok v => ⟨some v, none⟩
  | .exn tb => ⟨none, some tb⟩

/-- Embeds Python 2 `min(x, n)` for `x` either `None` or an int
(vm_util.py:440): in Python 2, `None` compares less than every integer, so
`min(None, n)` is `None`. -/
def pyMinOptNat : Option Nat → Nat → Option Nat
  | none, _ => none
  | some m, n => some (min m n)

/-- Embeds the Python 2 comparison `a < x` for an int `a` and `x` either
`None` or an int (vm_util.py:461): in Python 2, an integer is never less
than `None`, so the comparison is `False` when `x` is `None`. -/
def pyLtNatOptNat (a : Nat) : Option Nat → Bool
  | none => false
  | some m => decide (a < m)

/-- Static data of one `RunParallelProcesses` run: the batch length and the
`max_concurrency` argument (`none` embeds Python `None`). -/
structure PPConfig where
  numCalls : Nat
  max_concurrency : Option Nat
deriving DecidableEq, Repr

/-- Value of the local `max_concurrency` after the reassignment
`max_concurrency = min(max_concurrency, len(target_arg_tuples))`
(vm_util.py:440). -/
def PPConfig.effectiveMc (cfg : PPConfig) : Option Nat :=
  pyMinOptNat cfg.max_concurrency cfg.numCalls

/-- Interrupt phase of the `RunParallelProcesses` controller: `noInterrupt`
before any `KeyboardInterrupt`, `soft` after the first (vm_util.py:516-526),
`hard` after the second (vm_util.py:527-539). -/
inductive InterruptPhase where
  | noInterrupt
  | soft
  | hard
deriving DecidableEq, Repr

/-- Controller state of `RunParallelProcesses`: the `next_call_id` counter,
the keys of the `active_processes` OrderedDict in launch order, and the
interrupt phase (`received_interrupt` is `None` exactly in phase
`noInterrupt`). -/
structure PPState where
  next_call_id : Nat
  active : List Nat
  phase : InterruptPhase
deriving DecidableEq, Repr

/-- Initial controller state (vm_util.py:446-449). -/
def initPPState : PPState := ⟨0, [], .noInterrupt⟩

/-- Labels of the controller step relation. -/
inductive PPLabel where
  | dispatch
  | complete (call_id : Nat)
  | interrupt
  | kill (call_id : Nat)
deriving DecidableEq, Repr

/-- Step relation of the `RunParallelProcesses` controller loop
(vm_util.py:450-539).  `dispatch` embeds the guard at vm_util.py:460-462
(`next_call_id < len(target_arg_tuples) and len(active_processes) <
max_concurrency and not received_interrupt`) and the launch at
vm_util.py:463-483; `complete` embeds joining a finished child and popping
it from `active_processes` (vm_util.py:486-515), which runs in the inner
loop, i.e. before a second interrupt; `interrupt` embeds the two
`KeyboardInterrupt` handlers (first: record and continue, second: leave the
loop); `kill` embeds the `os.kill(process.pid, signal.SIGKILL)` cleanup,
which only the second-interrupt handler performs (vm_util.py:531-539). -/
inductive PPStep (cfg : PPConfig) : PPState → PPLabel → PPState → Prop where
  | dispatch (s : PPState)
      (h1 : s.next_call_id < cfg.numCalls)
      (h2 : pyLtNatOptNat s.active.length cfg.effectiveMc = true)
      (h3 : s.phase = .noInterrupt) :
      PPStep cfg s .dispatch ⟨s.next_call_id + 1, s.active ++ [s.next_call_id], s.phase⟩
  | complete (s : PPState) (cid : Nat)
      (h1 : cid ∈ s.active) (h2 : s.phase ≠ .hard) :
      PPStep cfg s (.complete cid) ⟨s.next_call_id, s.active.erase cid, s.phase⟩
  | interruptFirst (s : PPState) (h : s.phase = .noInterrupt) :
      PPStep cfg s .interrupt ⟨s.next_call_id, s.active, .soft⟩
  | interruptSecond (s : PPState) (h : s.phase = .soft) :
      PPStep cfg s .interrupt ⟨s.next_call_id, s.active, .hard⟩
  | kill (s : PPState) (cid : Nat)
      (h1 : cid ∈ s.active) (h2 : s.phase = .hard) :
      PPStep cfg s (.kill cid) ⟨s.next_call_id, s.active.erase cid, s.phase⟩

/-- States the controller can reach from its initial state. -/
inductive PPReachable (cfg : PPConfig) : PPState → Prop where
  | init : PPReachable cfg initPPState
  | step (s s' : PPState) (l : PPLabel) (hs : PPReachable cfg s)
      (hstep : PPStep cfg s l s') : PPReachable cfg s'

/-- Exceptions the tail of `RunParallelProcesses` can raise: the combined
`errors.VmUtil.CalledProcessException` (vm_util.py:556) or the re-raised
`KeyboardInterrupt` (vm_util.py:558). -/
inductive PPError where
  | calledProcess (msg : String)
  | keyboardInterrupt
deriving DecidableEq, Repr

/-- Embeds the `return_values` list built at vm_util.py:541-545: indexed by
`call_id`; a call whose slot was never created (never dispatched) keeps the
preallocated `None`. -/
def gatherReturnValues {α : Type} (call_results : List (Option (CallResultNamespace α))) :
    List (Option α) :=
  call_results.map (fun s =>
    match s with
    | some slot => slot.return_value
    | none => none)

/-- Embeds the `error_strings` list built at vm_util.py:542-550: one
formatted message per created slot holding a traceback, in `call_id`
order. -/
def gatherErrorStrings {α : Type} (tuples : List (TargetArgTuple α))
    (call_results : List (Option (CallResultNamespace α))) : List String :=
  (List.range call_results.length).filterMap (fun i =>
    match call_results.get? i with
    | some (some slot) => slot.traceback.map (fun tb => exceptionMsg (descAt tuples i) tb)
    | _ => none)

/-- Message of the combined `CalledProcessException` (vm_util.py:552-553). -/
def calledProcessMsg (error_strings : List String) : String :=
  "The following exceptions occurred during parallel execution:" ++ linesep ++
    String.intercalate linesep error_strings

/-- Embeds the result-gathering tail of `RunParallelProcesses`
(vm_util.py:540-559): raise the combined failure only when errors occurred
and neither an interrupt was received nor suppression requested; then
re-raise the recorded interrupt unless suppressed; otherwise return the
ordered `return_values`. -/
def gatherResults {α : Type} (tuples : List (TargetArgTuple α))
    (call_results : List (Option (CallResultNamespace α)))
    (received_interrupt suppress_exceptions : Bool) : Except PPError (List (Option α)) :=
  let error_strings := gatherErrorStrings tuples call_results
  if !error_strings.isEmpty && !(received_interrupt || suppress_exceptions) then
    .error (.calledProcess (calledProcessMsg error_strings))
  else if received_interrupt && !suppress_exceptions then
    .error .keyboardInterrupt
  else
    .ok (gatherReturnValues call_results)

/-- Numeric parameters of one `Retry` wrapper (vm_util.py:562):
`max_retries` is an `Int` because `-1` means unbounded; `timeout` is the
resolved `local_timeout` (the `FLAGS.default_timeout` fallback already
applied), negative meaning unbounded. -/
structure RetryParams where
  poll_interval : ℚ
  max_retries : Int
  timeout : ℚ
  fuzz : ℚ
deriving DecidableEq, Repr

/-- Embeds `fuzz_multiplier = 1 - fuzz + random.random() * fuzz`
(vm_util.py:609), with `r` the value drawn from `random.random()`. -/
def fuzzMultiplier (fuzz r : ℚ) : ℚ := 1 - fuzz + r * fuzz

/-- Embeds `sleep_time = poll_interval * fuzz_multiplier` (vm_util.py:610). -/
def sleepTime (p : RetryParams) (r : ℚ) : ℚ := p.poll_interval * fuzzMultiplier p.fuzz r

/-- Embeds the deadline computation (vm_util.py:598-601): `start + timeout`
when the timeout is nonnegative, `none` embedding `float(inf)` otherwise. -/
def deadlineOf (p : RetryParams) (start : ℚ) : Option ℚ :=
  if 0 ≤ p.timeout then some (start + p.timeout) else none

/-- Embeds `(time.time() + sleep_time) >= deadline` (vm_util.py:611) at
absolute time `t = now + sleep_time`; always false against the infinite
deadline. -/
def deadlineReached (deadline : Option ℚ) (t : ℚ) : Bool :=
  match deadline with
  | some d => decide (d ≤ t)
  | none => false

/-- Embeds `max_retries >= 0 and tries > max_retries` (vm_util.py:612). -/
def retriesExceeded (max_retries : Int) (tries : Nat) : Bool :=
  decide (0 ≤ max_retries) && decide (max_retries < (tries : Int))

/-- Result of running a wrapped function: its value or the re-raised
original exception, each tagged with the number of attempts made; `outOfFuel`
marks an execution the chosen fuel did not run to completion (the source
loop has no intrinsic bound). -/
inductive RetryOutcome (α ε : Type) where
  | success (v : α) (tries : Nat)
  | reraised (e : ε) (tries : Nat)
  | outOfFuel (tries : Nat)
deriving DecidableEq, Repr

/-- Number of attempts recorded in a `RetryOutcome`. -/
def RetryOutcome.triesMade {α ε : Type} : RetryOutcome α ε → Nat
  | .success _ t => t
  | .reraised _ t => t
  | .outOfFuel t => t

/-- Embeds the `while True` retry loop of `WrappedFunction`
(vm_util.py:603-617).  `f n` is the outcome of attempt `n` (0-based),
`rand n` the value `random.random()` yields after a failed attempt `n`,
`now` the current clock, and `tries` the attempts already made.  Attempts
are instantaneous in this time model; the clock advances by `sleep_time` on
each retry.  The attempt is made before the deadline and retry-count checks,
exactly as in the source. -/
def retryAux {α ε : Type} (p : RetryParams) (f : Nat → Except ε α) (rand : Nat → ℚ)
    (deadline : Option ℚ) : Nat → ℚ → Nat → RetryOutcome α ε
  | 0, _, tries => .outOfFuel tries
  | fuel + 1, now, tries =>
    match f tries with
    | .ok v => .success v (tries + 1)
    | .error e =>
      let sleep_time := sleepTime p (rand tries)
      if deadlineReached deadline (now + sleep_time) ||
          retriesExceeded p.max_retries (tries + 1) then
        .reraised e (tries + 1)
      else
        retryAux p f rand deadline fuel (now + sleep_time) (tries + 1)

/-- Embeds `WrappedFunction` (vm_util.py:594-617): computes the deadline
once from the start time, then runs the retry loop from zero tries. -/
def WrappedFunction {α ε : Type} (p : RetryParams) (f : Nat → Except ε α)
    (rand : Nat → ℚ) (start : ℚ) (fuel : Nat) : RetryOutcome α ε :=
  retryAux p f rand (deadlineOf p start) fuel start 0

/-- Embeds the Python values `RunThreaded` inspects: ints, strings, tuples,
lists, dicts and `None`. -/
inductive PyVal where
  | int (n : Int)
  | str (s : String)
  | tuple (xs : List PyVal)
  | pylist (xs : List PyVal)
  | dict (entries : List (PyVal × PyVal))
  | pyNone

/-- Embeds `isinstance(v, tuple)`. -/
def PyVal.isTuple : PyVal → Bool
  | .tuple _ => true
  | _ => false

/-- Embeds `isinstance(v, list)`. -/
def PyVal.isList : PyVal → Bool
  | .pylist _ => true
  | _ => false

/-- Embeds `isinstance(v, dict)`. -/
def PyVal.isDict : PyVal → Bool
  | .dict _ => true
  | _ => false

/-- Exceptions the normalization step of `RunThreaded` can raise. -/
inductive PyErr where
  | valueError (msg : String)
  | indexError
  | typeError (msg : String)
deriving DecidableEq, Repr

/-- Embeds Python subscripting `v[i]` for the sequence shapes the source
exercises (tuples and lists): out-of-range indices raise `IndexError`,
non-sequences raise `TypeError`. -/
def pySubscript (v : PyVal) (i : Nat) : Except PyErr PyVal :=
  match v with
  | .tuple xs =>
    match xs.get? i with
    | some x => .ok x
    | none => .error .indexError
  | .pylist xs =>
    match xs.get? i with
    | some x => .ok x
    | none => .error .indexError
  | _ => .error (.typeError "object is not subscriptable")

/-- Embeds the two-target unpacking `for args, kwargs in thread_params`
(vm_util.py:351) for the sequence shapes the source exercises: a 2-element
tuple or list unpacks, other lengths raise `ValueError`, non-sequences
raise `TypeError`. -/
def pyUnpack2 (v : PyVal) : Except PyErr (PyVal × PyVal) :=
  match v with
  | .tuple [a, b] => .ok (a, b)
  | .pylist [a, b] => .ok (a, b)
  | .tuple xs =>
    if xs.length < 2 then .error (.valueError "need more than 1 value to unpack")
    else .error (.valueError "too many values to unpack")
  | .pylist xs =>
    if xs.length < 2 then .error (.valueError "need more than 1 value to unpack")
    else .error (.valueError "too many values to unpack")
  | _ => .error (.typeError "object is not iterable")

/-- Argument part of one `(target, args, kwargs)` tuple built by
`RunThreaded`; the fixed `target` is left implicit. -/
structure PyCallArgs where
  args : PyVal
  kwargs : PyVal

/-- Embeds the list comprehension `[(target, args, kwargs) for args, kwargs
in thread_params]` (vm_util.py:350-351), evaluated left to right: the first
element whose unpacking fails raises. -/
def normalizeRest (ps : List PyVal) : Except PyErr (List PyCallArgs) :=
  match ps with
  | [] => .ok []
  | p :: rest =>
    match pyUnpack2 p with
    | .error e => .error e
    | .ok ak =>
      match normalizeRest rest with
      | .error e => .error e
      | .ok tail => .ok (⟨ak.1, ak.2⟩ :: tail)

/-- Message of the `ValueError` at vm_util.py:338. -/
def threadParamsNotListMsg : String := "Param \"thread_params\" must be a list"

/-- Message of the `ValueError` at vm_util.py:348. -/
def invalidTupleMsg : String := "If Param is a tuple, the tuple must be (tuple, dict)"

/-- Embeds the validation and normalization part of `RunThreaded`
(vm_util.py:337-353), everything before the call to `RunParallelThreads`:
reject a non-list; return an empty batch unchanged; if the first element is
not a tuple wrap every element as the sole positional argument; otherwise
validate only the first element against the `(tuple, dict)` shape (with
Python evaluation order: `thread_params[0][0]` first, `thread_params[0][1]`
only if the first check passes) and then unpack every element. -/
def RunThreadedNormalize (thread_params : PyVal) : Except PyErr (List PyCallArgs) :=
  match thread_params with
  | .pylist [] => .ok []
  | .pylist (p0 :: rest) =>
    if !p0.isTuple then
      .ok ((p0 :: rest).map (fun arg => ⟨.tuple [arg], .dict []⟩))
    else
      match pySubscript p0 0 with
      | .error e => .error e
      | .ok x0 =>
        if !x0.isTuple then .error (.valueError invalidTupleMsg)
        else
          match pySubscript p0 1 with
          | .error e => .error e
          | .ok x1 =>
            if !x1.isDict then .error (.valueError invalidTupleMsg)
            else normalizeRest (p0 :: rest)
  | _ => .error (.valueError threadParamsNotListMsg)

/-- Unfolds `ExecuteThreadCall` to its three field values. -/
theorem ExecuteThreadCall_eq {α : Type} (o : CallOutcome α) (i : Nat) :
    ExecuteThreadCall o i = ⟨i, o.returnValue, o.traceback⟩ := by
  cases o <;> rfl

/-- Processing one queue item stores the return value at its call id. -/
theorem processQueueItem_results {α : Type} (tuples : List (TargetArgTuple α))
    (st : ThreadPoolState α) (r : ThreadCallResult α) :
    (processQueueItem tuples st r).results = st.results.set r.call_id r.return_value := by
  simp only [processQueueItem]
  split <;> rfl

/-- Processing one queue item appends the error string of a failed call and
leaves the error strings unchanged for a successful one. -/
theorem processQueueItem_error_strings {α : Type} (tuples : List (TargetArgTuple α))
    (st : ThreadPoolState α) (r : ThreadCallResult α) :
    (processQueueItem tuples st r).error_strings
      = st.error_strings
        ++ (r.traceback.map (fun tb => exceptionMsg (descAt tuples r.call_id) tb)).toList := by
  rcases r with ⟨cid, rv, tb⟩
  cases tb <;> simp only [processQueueItem] <;> split <;> simp

/-- Result array of the controller loop: the fold of by-call-id writes over
the arrival order. -/
theorem runThreadLoop_results {α : Type} (tuples : List (TargetArgTuple α))
    (arrivals : List Nat) :
    ∀ st : ThreadPoolState α,
      (runThreadLoop tuples st arrivals).results
        = arrivals.foldl (fun r i => r.set i ((outcomeAt tuples i).returnValue)) st.results := by
  induction arrivals with
  | nil => intro st; rfl
  | cons i rest ih =>
    intro st
    simp only [runThreadLoop, List.foldl_cons, ih, processQueueItem_results,
      ExecuteThreadCall_eq]

/-- Error strings of the controller loop: the failures seen, in arrival
order. -/
theorem runThreadLoop_error_strings {α : Type} (tuples : List (TargetArgTuple α))
    (arrivals : List Nat) :
    ∀ st : ThreadPoolState α,
      (runThreadLoop tuples st arrivals).error_strings
        = st.error_strings ++ arrivals.filterMap (errOf tuples) := by
  induction arrivals with
  | nil => intro st; simp [runThreadLoop]
  | cons i rest ih =>
    intro st
    simp only [runThreadLoop, ih, processQueueItem_error_strings, ExecuteThreadCall_eq,
      List.filterMap_cons]
    cases h : (outcomeAt tuples i).traceback <;>
      simp [errOf, h, List.append_assoc]

/-- Writing each listed index into a preallocated array, in any order and
with any repetitions, leaves the indexed value at every listed in-range
position: the by-call-id indexing discipline. -/
theorem foldl_set_lookup {α : Type} (f : Nat → Option α) (l : List Nat) :
    ∀ (init : List (Option α)) (j : Nat),
      (l.foldl (fun r i => r.set i (f i)) init).get? j
        = if j ∈ l ∧ j < init.length then some (f j) else init.get? j := by
  induction l with
  | nil => intro init j; simp
  | cons i rest ih =>
    intro init j
    rw [List.foldl_cons, ih]
    simp only [List.get?_eq_getElem?, List.getElem?_set, List.length_set, List.mem_cons]
    by_cases hij : j = i
    · subst hij
      by_cases hlen : j < init.length
      · simp [hlen]
      · simp [hlen, List.getElem?_eq_none (by omega : init.length ≤ j)]
    · simp [hij, Ne.symm hij]

/-- Folding by-index writes preserves the array length. -/
theorem foldl_set_length {α : Type} (f : Nat → Option α) (l : List Nat) :
    ∀ init : List (Option α),
      (l.foldl (fun r i => r.set i (f i)) init).length = init.length := by
  induction l with
  | nil => intro init; rfl
  | cons i rest ih => intro init; rw [List.foldl_cons, ih, List.length_set]

/-- C1: for any batch, any max concurrency, and any queue-arrival
(completion) order delivering every call id, the controller's result array
holds the i-th call's return value at index i — results are indexed by
call id, not arrival order; when no call fails, `RunParallelThreads`
returns exactly the submission-ordered return values; and the
`return_values` list built by `RunParallelProcesses` from completed slots
likewise holds each call's return value at its own index. -/
theorem RunParallelThreads_order_invariance {α : Type} (tuples : List (TargetArgTuple α))
    (max_concurrency : Nat) (arrivals : List Nat)
    (hperm : arrivals.Perm (List.range tuples.length)) :
    (∀ i, i < tuples.length →
      (runThreadLoop tuples (initThreadPoolState α tuples.length max_concurrency)
          arrivals).results.get? i = some ((outcomeAt tuples i).returnValue))
    ∧ (failingIds tuples = [] →
        RunParallelThreads tuples max_concurrency arrivals
          = .ok (tuples.map (fun t => t.outcome.returnValue)))
    ∧ (∀ outcomes : List (CallOutcome α),
        gatherReturnValues (outcomes.map (fun o => some (ExecuteProcCall o)))
          = outcomes.map CallOutcome.returnValue) := by
  have hmem : ∀ j : Nat, j ∈ arrivals ↔ j < tuples.length := by
    intro j; rw [hperm.mem_iff, List.mem_range]
  have hres : ∀ i, i < tuples.length →
      (runThreadLoop tuples (initThreadPoolState α tuples.length max_concurrency)
          arrivals).results.get? i = some ((outcomeAt tuples i).returnValue) := by
    intro i hi
    rw [runThreadLoop_results, foldl_set_lookup]
    simp only [initThreadPoolState, List.length_replicate]
    rw [if_pos ⟨(hmem i).mpr hi, hi⟩]
  refine ⟨hres, ?_, ?_⟩
  · intro hfail
    have hnofail : ∀ i ∈ List.range tuples.length,
        ¬ ((outcomeAt tuples i).traceback).isSome = true := by
      intro i hi
      exact List.filter_eq_nil.mp hfail i hi
    have herr : (runThreadLoop tuples
        (initThreadPoolState α tuples.length max_concurrency) arrivals).error_strings = [] := by
      rw [runThreadLoop_error_strings]
      simp only [initThreadPoolState, List.nil_append]
      rw [List.filterMap_eq_nil]
      intro i hi
      have hlt : i < tuples.length := (hmem i).mp hi
      have := hnofail i (List.mem_range.mpr hlt)
      unfold errOf
      cases h : (outcomeAt tuples i).traceback with
      | none => rfl
      | some tb => rw [h] at this; simp at this
    have hlen : (runThreadLoop tuples
        (initThreadPoolState α tuples.length max_concurrency) arrivals).results.length
          = tuples.length := by
      rw [runThreadLoop_results, foldl_set_length]
      simp [initThreadPoolState]
    simp only [RunParallelThreads, herr, List.isEmpty_nil, if_true]
    congr 1
    apply List.ext_get?
    intro n
    by_cases hn : n < tuples.length
    · rw [hres n hn]
      cases h : tuples.get? n with
      | none => rw [List.get?_eq_none] at h; omega
      | some t =>
        have : (tuples.map (fun t => t.outcome.returnValue)).get? n
            = some t.outcome.returnValue := by
          rw [List.get?_map, h]; rfl
        rw [this]
        rw [List.get?_eq_getElem?] at h
        simp [outcomeAt, h]
    · have h1 : (runThreadLoop tuples
          (initThreadPoolState α tuples.length max_concurrency) arrivals).results.get? n
            = none := by
        rw [List.get?_eq_none, hlen]; omega
      have h2 : (tuples.map (fun t => t.outcome.returnValue)).get? n = none := by
        rw [List.get?_eq_none, List.length_map]; omega
      rw [h1, h2]
  · intro outcomes
    induction outcomes with
    | nil => rfl
    | cons o rest ih =>
      cases o <;> simp_all [gatherReturnValues, ExecuteProcCall, CallOutcome.returnValue]

/-- Witness for C1: a three-call batch with concurrency 2 whose results
arrive in the order 1, 2, 0 still returns values in submission order. -/
theorem RunParallelThreads_order_invariance_witness :
    RunParallelThreads
        ([⟨"a", .ok 10⟩, ⟨"b", .ok 20⟩, ⟨"c", .ok 30⟩] : List (TargetArgTuple Nat))
        2 [1, 2, 0]
      = .ok [some 10, some 20, some 30] := by
  have h := (RunParallelThreads_order_invariance
    ([⟨"a", .ok 10⟩, ⟨"b", .ok 20⟩, ⟨"c", .ok 30⟩] : List (TargetArgTuple Nat))
    2 [1, 2, 0] (by decide)).2.1 (by decide)
  exact h.trans rfl

/-- Collecting the per-index error strings over any index list equals
mapping the closed-form message over the failing indices of that list. -/
theorem filterMap_errOf_eq {α : Type} (tuples : List (TargetArgTuple α)) :
    ∀ l : List Nat,
      l.filterMap (errOf tuples)
        = (l.filter (fun i => ((outcomeAt tuples i).traceback).isSome)).map
            (failMsgAt tuples) := by
  intro l
  induction l with
  | nil => rfl
  | cons i rest ih =>
    rw [List.filterMap_cons, List.filter_cons]
    cases h : (outcomeAt tuples i).traceback with
    | none => simp [errOf, h, ih]
    | some tb => simp [errOf, failMsgAt, h, ih]

/-- C3: with the failing calls of a batch forming the index set F, no
failure stops a sibling: every call's result is still recorded at its
index; if F is nonempty, `RunParallelThreads` raises a combined
`ThreadException` whose error strings are exactly (up to arrival order) the
formatted description-plus-traceback messages of the calls in F; if F is
empty, the ordered return values are returned and nothing is raised. -/
theorem RunParallelThreads_failure_aggregation {α : Type}
    (tuples : List (TargetArgTuple α)) (max_concurrency : Nat) (arrivals : List Nat)
    (hperm : arrivals.Perm (List.range tuples.length)) :
    (∀ i, i < tuples.length →
      (runThreadLoop tuples (initThreadPoolState α tuples.length max_concurrency)
          arrivals).results.get? i = some ((outcomeAt tuples i).returnValue))
    ∧ (failingIds tuples ≠ [] → ∃ errs,
        RunParallelThreads tuples max_concurrency arrivals = .error errs
        ∧ errs.Perm ((failingIds tuples).map (failMsgAt tuples)))
    ∧ (failingIds tuples = [] →
        RunParallelThreads tuples max_concurrency arrivals
          = .ok (tuples.map (fun t => t.outcome.returnValue))) := by
  refine ⟨(RunParallelThreads_order_invariance tuples max_concurrency arrivals hperm).1,
    ?_, (RunParallelThreads_order_invariance tuples max_concurrency arrivals hperm).2.1⟩
  intro hne
  have herrs : (runThreadLoop tuples
      (initThreadPoolState α tuples.length max_concurrency) arrivals).error_strings
        = arrivals.filterMap (errOf tuples) := by
    rw [runThreadLoop_error_strings]
    simp [initThreadPoolState]
  have hp : (arrivals.filterMap (errOf tuples)).Perm
      ((failingIds tuples).map (failMsgAt tuples)) := by
    have h1 := hperm.filterMap (errOf tuples)
    rw [filterMap_errOf_eq tuples (List.range tuples.length)] at h1
    exact h1
  have hnonempty : arrivals.filterMap (errOf tuples) ≠ [] := by
    intro h0
    rw [h0] at hp
    have := hp.symm.eq_nil
    exact hne (List.map_eq_nil.mp this)
  refine ⟨arrivals.filterMap (errOf tuples), ?_, hp⟩
  simp only [RunParallelThreads, herrs]
  rw [if_neg (by simpa [List.isEmpty_iff] using hnonempty)]

/-- Witness for C3: a three-call batch failing exactly at indices 0 and 2,
with results arriving in the order 2, 0, 1, raises the combined exception
listing exactly those two calls. -/
theorem RunParallelThreads_failure_aggregation_witness :
    ([2, 0, 1] : List Nat).Perm (List.range 3)
    ∧ failingIds
        ([⟨"a", .exn "ta"⟩, ⟨"b", .ok 20⟩, ⟨"c", .exn "tc"⟩] : List (TargetArgTuple Nat))
        ≠ []
    ∧ (∃ errs,
        RunParallelThreads
            ([⟨"a", .exn "ta"⟩, ⟨"b", .ok 20⟩, ⟨"c", .exn "tc"⟩] : List (TargetArgTuple Nat))
            2 [2, 0, 1]
          = .error errs
        ∧ errs.Perm
            ((failingIds
                ([⟨"a", .exn "ta"⟩, ⟨"b", .ok 20⟩, ⟨"c", .exn "tc"⟩] :
                  List (TargetArgTuple Nat))).map
              (failMsgAt
                ([⟨"a", .exn "ta"⟩, ⟨"b", .ok 20⟩, ⟨"c", .exn "tc"⟩] :
                  List (TargetArgTuple Nat))))) :=
  ⟨by decide, by decide,
    (RunParallelThreads_failure_aggregation
      ([⟨"a", .exn "ta"⟩, ⟨"b", .ok 20⟩, ⟨"c", .exn "tc"⟩] : List (TargetArgTuple Nat))
      2 [2, 0, 1] (by decide)).2.1 (by decide)⟩

/-- Counter projections of processing one queue item: the two loop counters
depend only on whether all calls have been launched. -/
theorem processQueueItem_counters {α : Type} (tuples : List (TargetArgTuple α))
    (st : ThreadPoolState α) (r : ThreadCallResult α) :
    (processQueueItem tuples st r).next_call_id
        = (if st.next_call_id = tuples.length then st.next_call_id else st.next_call_id + 1)
    ∧ (processQueueItem tuples st r).active_thread_count
        = (if st.next_call_id = tuples.length then st.active_thread_count - 1
            else st.active_thread_count) := by
  simp only [processQueueItem]
  split <;> simp_all

/-- Counter invariant of the thread-pool loop: starting with `m ≤ N` calls
launched, after processing `k` completions the number of launched calls is
`min (m + k) N` and the live-worker counter is `m` until the backlog runs
out, then decreases: one new launch per completion while work remains. -/
theorem runThreadLoop_counters {α : Type} (tuples : List (TargetArgTuple α)) (m : Nat)
    (hm : m ≤ tuples.length) :
    ∀ (arrivals : List Nat) (st : ThreadPoolState α) (k : Nat),
      k + arrivals.length ≤ tuples.length →
      st.next_call_id = min (m + k) tuples.length →
      st.active_thread_count = m - (k - (tuples.length - m)) →
      (runThreadLoop tuples st arrivals).next_call_id
          = min (m + (k + arrivals.length)) tuples.length
        ∧ (runThreadLoop tuples st arrivals).active_thread_count
          = m - ((k + arrivals.length) - (tuples.length - m)) := by
  intro arrivals
  induction arrivals with
  | nil =>
    intro st k hk h1 h2
    simpa using ⟨h1, h2⟩
  | cons i rest ih =>
    intro st k hk h1 h2
    simp only [runThreadLoop]
    have hc := processQueueItem_counters tuples st
      (ExecuteThreadCall (outcomeAt tuples i) i)
    have hnext := ih (processQueueItem tuples st (ExecuteThreadCall (outcomeAt tuples i) i))
      (k + 1)
      (by simp at hk ⊢; omega)
      (by rw [hc.1, h1]; split <;> omega)
      (by rw [hc.2, h2, h1]; split <;> omega)
    simp only [List.length_cons] at hnext ⊢
    constructor
    · rw [hnext.1]; congr 1; omega
    · rw [hnext.2]; congr 1; omega

/-- C2: the worker count never exceeds the bound in either pool.  Thread
pool: `min(max_concurrency, N)` workers are launched up front, each
processed completion launches at most one replacement (launched total
`min(m + k, N)` after `k` completions), and the live-worker counter never
exceeds `max_concurrency`.  Process pool: every state reachable by the
controller keeps `len(active_processes) ≤ max_concurrency`, since the
dispatch guard requires `len(active_processes) < max_concurrency`. -/
theorem pool_concurrency_bound :
    (∀ (α : Type) (tuples : List (TargetArgTuple α)) (max_concurrency : Nat)
        (arrivals : List Nat),
      arrivals.length ≤ tuples.length →
      (initThreadPoolState α tuples.length max_concurrency).next_call_id
          = min max_concurrency tuples.length
      ∧ (runThreadLoop tuples (initThreadPoolState α tuples.length max_concurrency)
            arrivals).next_call_id
          = min (min max_concurrency tuples.length + arrivals.length) tuples.length
      ∧ (runThreadLoop tuples (initThreadPoolState α tuples.length max_concurrency)
            arrivals).active_thread_count ≤ max_concurrency)
    ∧ (∀ (cfg : PPConfig) (m : Nat) (s : PPState),
        cfg.max_concurrency = some m → PPReachable cfg s → s.active.length ≤ m) := by
  constructor
  · intro α tuples max_concurrency arrivals hlen
    have h := runThreadLoop_counters tuples (min max_concurrency tuples.length)
      (Nat.min_le_right _ _) arrivals
      (initThreadPoolState α tuples.length max_concurrency) 0
      (by omega)
      (by simp [initThreadPoolState])
      (by simp [initThreadPoolState])
    refine ⟨rfl, by simpa using h.1, ?_⟩
    rw [h.2]
    omega
  · intro cfg m s hmc hreach
    induction hreach with
    | init => simp [initPPState]
    | step s s' l hs hstep ih =>
      cases hstep with
      | dispatch h1 h2 h3 =>
        simp only [PPConfig.effectiveMc, hmc, pyMinOptNat, pyLtNatOptNat,
          decide_eq_true_eq] at h2
        simp only [List.length_append, List.length_singleton]
        omega
      | complete cid h1 h2 =>
        calc (s.active.erase cid).length ≤ s.active.length :=
              List.Sublist.length_le (List.erase_sublist cid s.active)
          _ ≤ m := ih
      | interruptFirst h => exact ih
      | interruptSecond h => exact ih
      | kill cid h1 h2 =>
        calc (s.active.erase cid).length ≤ s.active.length :=
              List.Sublist.length_le (List.erase_sublist cid s.active)
          _ ≤ m := ih

/-- Witness for C2: the thread-pool counters on a concrete three-call batch
at concurrency 2, and a concrete reachable process-pool state under
concurrency bound 1. -/
theorem pool_concurrency_bound_witness :
    ((initThreadPoolState Nat 3 2).next_call_id = min 2 3
      ∧ (runThreadLoop ([⟨"a", .ok 1⟩, ⟨"b", .ok 2⟩, ⟨"c", .ok 3⟩] : List (TargetArgTuple Nat))
            (initThreadPoolState Nat 3 2) [0, 1, 2]).next_call_id = min (min 2 3 + 3) 3
      ∧ (runThreadLoop ([⟨"a", .ok 1⟩, ⟨"b", .ok 2⟩, ⟨"c", .ok 3⟩] : List (TargetArgTuple Nat))
            (initThreadPoolState Nat 3 2) [0, 1, 2]).active_thread_count ≤ 2)
    ∧ (⟨1, [0], .noInterrupt⟩ : PPState).active.length ≤ 1 := by
  constructor
  · exact pool_concurrency_bound.1 Nat
      ([⟨"a", .ok 1⟩, ⟨"b", .ok 2⟩, ⟨"c", .ok 3⟩] : List (TargetArgTuple Nat)) 2 [0, 1, 2]
      (by decide)
  · exact pool_concurrency_bound.2 ⟨2, some 1⟩ 1 ⟨1, [0], .noInterrupt⟩ rfl
      (PPReachable.step _ _ _ PPReachable.init
        (PPStep.dispatch initPPState (by decide) (by decide) rfl))

/-- C4: once the first `KeyboardInterrupt` has been recorded, every further
controller step leaves `next_call_id` unchanged and the interrupt recorded
— no new worker process is ever launched; force-kills happen only in the
hard (second-interrupt) phase; and while in the soft phase every
already-launched worker can still be waited on and reaped. -/
theorem RunParallelProcesses_no_launch_after_interrupt :
    (∀ (cfg : PPConfig) (s : PPState) (l : PPLabel) (s' : PPState),
        PPStep cfg s l s' → s.phase ≠ .noInterrupt →
        s'.next_call_id = s.next_call_id ∧ s'.phase ≠ .noInterrupt)
    ∧ (∀ (cfg : PPConfig) (s : PPState) (cid : Nat) (s' : PPState),
        PPStep cfg s (.kill cid) s' → s.phase = .hard)
    ∧ (∀ (cfg : PPConfig) (s : PPState) (cid : Nat),
        cid ∈ s.active → s.phase ≠ .hard →
        PPStep cfg s (.complete cid) ⟨s.next_call_id, s.active.erase cid, s.phase⟩) := by
  refine ⟨?_, ?_, ?_⟩
  · intro cfg s l s' hstep hphase
    cases hstep <;> simp_all
  · intro cfg s cid s' hstep
    cases hstep with
    | kill c h1 h2 => exact h2
  · intro cfg s cid h1 h2
    exact PPStep.complete s cid h1 h2

/-- Witness for C4: a second interrupt at a soft-phase state launches
nothing; a concrete kill step sits in the hard phase; a concrete
soft-phase completion step is enabled. -/
theorem RunParallelProcesses_no_launch_after_interrupt_witness :
    ((⟨3, [1], .hard⟩ : PPState).next_call_id = (⟨3, [1], .soft⟩ : PPState).next_call_id
      ∧ (⟨3, [1], .hard⟩ : PPState).phase ≠ .noInterrupt)
    ∧ (⟨1, [0], .hard⟩ : PPState).phase = .hard
    ∧ PPStep ⟨4, some 2⟩ ⟨3, [1], .soft⟩ (.complete 1) ⟨3, [], .soft⟩ := by
  refine ⟨?_, ?_, ?_⟩
  · exact RunParallelProcesses_no_launch_after_interrupt.1 ⟨4, some 2⟩
      ⟨3, [1], .soft⟩ .interrupt ⟨3, [1], .hard⟩
      (PPStep.interruptSecond _ rfl) (by decide)
  · exact RunParallelProcesses_no_launch_after_interrupt.2.1 ⟨4, some 2⟩
      ⟨1, [0], .hard⟩ 0 ⟨1, [], .hard⟩
      (PPStep.kill ⟨1, [0], .hard⟩ 0 (by decide) rfl)
  · exact RunParallelProcesses_no_launch_after_interrupt.2.2 ⟨4, some 2⟩
      ⟨3, [1], .soft⟩ 1 (by decide) (by decide)

/-- C5: with `suppress_exceptions` set, the gather phase of
`RunParallelProcesses` never raises — it returns the `return_values` list —
and every call that failed (slot holds a traceback, so its return slot is
still `None`, as the worker writer guarantees) and every call never
dispatched (no slot) resolves to `None` in the returned list; with an
interrupt recorded and suppression off, the recorded `KeyboardInterrupt`
is re-raised and the combined `CalledProcessException` is not. -/
theorem gatherResults_suppression {α : Type} (tuples : List (TargetArgTuple α))
    (call_results : List (Option (CallResultNamespace α))) (received_interrupt : Bool) :
    gatherResults tuples call_results received_interrupt true
        = .ok (gatherReturnValues call_results)
    ∧ (∀ i, call_results.get? i = some none →
        (gatherReturnValues call_results).get? i = some none)
    ∧ (∀ i slot, call_results.get? i = some (some slot) →
        slot.return_value = none →
        (gatherReturnValues call_results).get? i = some none)
    ∧ gatherResults tuples call_results true false = .error .keyboardInterrupt
    ∧ (∀ o : CallOutcome α, ((ExecuteProcCall o).traceback).isSome = true →
        (ExecuteProcCall o).return_value = none) := by
  refine ⟨?_, ?_, ?_, ?_, ?_⟩
  · simp [gatherResults]
  · intro i h
    rw [gatherReturnValues, List.get?_map, h]
    rfl
  · intro i slot h hrv
    rw [gatherReturnValues, List.get?_map, h]
    simp [hrv]
  · simp [gatherResults]
  · intro o ho
    cases o with
    | ok v => simp [ExecuteProcCall, CallOutcome.traceback] at ho
    | exn tb => rfl

/-- Witness for C5 at a concrete slot list: one success, one failure, one
never-dispatched call; suppression returns `[some 5, none, none]`, and the
failed and missing slots resolve to `None`. -/
theorem gatherResults_suppression_witness :
    gatherResults ([] : List (TargetArgTuple Nat))
        [some ⟨some 5, none⟩, some ⟨none, some "tb"⟩, none] false true
      = .ok [some 5, none, none]
    ∧ (gatherReturnValues
        [some (⟨some 5, none⟩ : CallResultNamespace Nat), some ⟨none, some "tb"⟩, none]).get? 2
      = some none
    ∧ (gatherReturnValues
        [some (⟨some 5, none⟩ : CallResultNamespace Nat), some ⟨none, some "tb"⟩, none]).get? 1
      = some none := by
  refine ⟨?_, ?_, ?_⟩
  · exact (gatherResults_suppression []
      [some ⟨some 5, none⟩, some ⟨none, some "tb"⟩, none] false).1.trans rfl
  · exact (gatherResults_suppression []
      [some ⟨some 5, none⟩, some ⟨none, some "tb"⟩, none] false).2.1 2 rfl
  · exact (gatherResults_suppression []
      [some ⟨some 5, none⟩, some ⟨none, some "tb"⟩, none] false).2.2.1 1
      ⟨none, some "tb"⟩ rfl rfl

/-- C7 (against the documented default): with `max_concurrency=None`, the
Python 2 `min(None, N)` stays `None` and the dispatch guard
`len(active_processes) < None` is always false, so no reachable controller
state ever launches a worker — the documented fallback to the processor
count does not exist in the code. -/
theorem RunParallelProcesses_none_concurrency_never_dispatches :
    (∀ n : Nat, pyMinOptNat none n = none)
    ∧ (∀ n : Nat, pyLtNatOptNat n none = false)
    ∧ (∀ (cfg : PPConfig) (s : PPState), cfg.max_concurrency = none →
        PPReachable cfg s → s.next_call_id = 0 ∧ s.active = []) := by
  refine ⟨fun n => rfl, fun n => rfl, ?_⟩
  intro cfg s hmc hreach
  induction hreach with
  | init => exact ⟨rfl, rfl⟩
  | step s s' l hs hstep ih =>
    cases hstep with
    | dispatch h1 h2 h3 =>
      rw [PPConfig.effectiveMc, hmc] at h2
      simp [pyMinOptNat, pyLtNatOptNat] at h2
    | complete cid h1 h2 =>
      exact absurd (ih.2 ▸ h1) (List.not_mem_nil cid)
    | interruptFirst h => exact ih
    | interruptSecond h => exact ih
    | kill cid h1 h2 =>
      exact absurd (ih.2 ▸ h1) (List.not_mem_nil cid)

/-- Witness for C7: with a one-call batch and `max_concurrency = None`, the
initial state (trivially reachable) has launched nothing, and the effective
bound is still `None`. -/
theorem RunParallelProcesses_none_concurrency_never_dispatches_witness :
    pyMinOptNat none 1 = none
    ∧ (initPPState.next_call_id = 0 ∧ initPPState.active = []) :=
  ⟨RunParallelProcesses_none_concurrency_never_dispatches.1 1,
    RunParallelProcesses_none_concurrency_never_dispatches.2.2 ⟨1, none⟩ initPPState rfl
      PPReachable.init⟩

/-- Every outcome of the retry loop records strictly more attempts than had
been made when a re-raise happens: in particular no re-raise can report the
entry count. -/
theorem retryAux_reraised_lt {α ε : Type} (p : RetryParams) (f : Nat → Except ε α)
    (rand : Nat → ℚ) (d : Option ℚ) :
    ∀ (fuel : Nat) (now : ℚ) (tries : Nat) (e : ε) (t : Nat),
      retryAux p f rand d fuel now tries = .reraised e t → tries < t := by
  intro fuel
  induction fuel with
  | zero =>
    intro now tries e t h
    simp [retryAux] at h
  | succ fuel ih =>
    intro now tries e t h
    rw [retryAux] at h
    cases hf : f tries with
    | ok v => rw [hf] at h; simp at h
    | error e2 =>
      rw [hf] at h
      simp only at h
      split at h
      · simp only [RetryOutcome.reraised.injEq] at h
        omega
      · have := ih (now + sleepTime p (rand tries)) (tries + 1) e t h
        omega

/-- The retry loop never decreases the attempt counter. -/
theorem retryAux_triesMade_ge {α ε : Type} (p : RetryParams) (f : Nat → Except ε α)
    (rand : Nat → ℚ) (d : Option ℚ) :
    ∀ (fuel : Nat) (now : ℚ) (tries : Nat),
      tries ≤ (retryAux p f rand d fuel now tries).triesMade := by
  intro fuel
  induction fuel with
  | zero => intro now tries; simp [retryAux, RetryOutcome.triesMade]
  | succ fuel ih =>
    intro now tries
    rw [retryAux]
    cases hf : f tries with
    | ok v => simp [RetryOutcome.triesMade]
    | error e =>
      simp only
      split
      · simp [RetryOutcome.triesMade]
      · have := ih (now + sleepTime p (rand tries)) (tries + 1)
        omega

/-- C6: the sleep is `poll_interval * (1 - fuzz + fuzz * rand)`, hence
between 0 and `poll_interval` for fuzz and rand in [0, 1]; after a failed
attempt the loop re-raises that attempt's own failure exactly when
`now + sleep_time ≥ deadline` or the retry count is exceeded, and otherwise
sleeps and retries; concretely, with poll interval 1, fuzz 0, unbounded
retries and timeout 5, an always-failing operation is attempted exactly 5
times in this instantaneous-attempt time model and its own failure is then
re-raised. -/
theorem Retry_deadline_arithmetic :
    (∀ (p : RetryParams) (r : ℚ), 0 ≤ p.fuzz → p.fuzz ≤ 1 → 0 ≤ r → r ≤ 1 →
        0 ≤ p.poll_interval →
        0 ≤ sleepTime p r ∧ sleepTime p r ≤ p.poll_interval)
    ∧ (∀ (α ε : Type) (p : RetryParams) (f : Nat → Except ε α) (rand : Nat → ℚ)
        (d : Option ℚ) (fuel : Nat) (now : ℚ) (tries : Nat) (e : ε),
        f tries = .error e →
        (retryAux p f rand d (fuel + 1) now tries = .reraised e (tries + 1) ↔
          (deadlineReached d (now + sleepTime p (rand tries))
              || retriesExceeded p.max_retries (tries + 1)) = true))
    ∧ WrappedFunction ⟨1, -1, 5, 0⟩ (fun _ : Nat => (.error "boom" : Except String Nat))
        (fun _ => 0) 0 6 = .reraised "boom" 5 := by
  refine ⟨?_, ?_, ?_⟩
  · intro p r h1 h2 h3 h4 h5
    unfold sleepTime fuzzMultiplier
    constructor
    · nlinarith [mul_nonneg h3 h1]
    · nlinarith [mul_nonneg h5 (mul_nonneg h1 (by linarith : (0 : ℚ) ≤ 1 - r))]
  · intro α ε p f rand d fuel now tries e hf
    constructor
    · intro h
      by_contra hc
      rw [retryAux, hf] at h
      simp only at h
      rw [if_neg (by simpa using hc)] at h
      have := retryAux_reraised_lt p f rand d fuel
        (now + sleepTime p (rand tries)) (tries + 1) e (tries + 1) h
      omega
    · intro hc
      rw [retryAux, hf]
      simp only
      rw [if_pos hc]
  · set_option maxRecDepth 4000 in
    norm_num [WrappedFunction, retryAux, deadlineOf, deadlineReached, sleepTime,
      fuzzMultiplier, retriesExceeded]

/-- Witness for C6: the sleep bound at poll interval 2, fuzz one half and a
half-way random draw, and the re-raise characterization after a concrete
failed attempt with timeout 0 and max retries 0. -/
theorem Retry_deadline_arithmetic_witness :
    (0 ≤ sleepTime ⟨2, -1, 5, 1/2⟩ (1/2) ∧ sleepTime ⟨2, -1, 5, 1/2⟩ (1/2) ≤ 2)
    ∧ (retryAux ⟨1, 0, 0, 0⟩ (fun _ : Nat => (.error "x" : Except String Nat))
          (fun _ => 0) (some 0) 1 0 0 = .reraised "x" 1 ↔
        (deadlineReached (some 0) (0 + sleepTime ⟨1, 0, 0, 0⟩ ((fun _ : Nat => (0 : ℚ)) 0))
            || retriesExceeded (0 : Int) 1) = true) := by
  constructor
  · exact Retry_deadline_arithmetic.1 ⟨2, -1, 5, 1/2⟩ (1/2) (by norm_num) (by norm_num)
      (by norm_num) (by norm_num) (by norm_num)
  · exact Retry_deadline_arithmetic.2.1 Nat String ⟨1, 0, 0, 0⟩
      (fun _ => .error "x") (fun _ => 0) (some 0) 0 0 0 "x" rfl

/-- C8: the wrapped operation is always attempted at least once, for every
parameter combination including timeout 0 and max retries 0: the deadline
and retry-count checks run only after a failed attempt, so a first attempt
that succeeds returns immediately whatever the limits are. -/
theorem Retry_at_least_one_attempt {α ε : Type} (p : RetryParams) (f : Nat → Except ε α)
    (rand : Nat → ℚ) (start : ℚ) (fuel : Nat) (hfuel : 1 ≤ fuel) :
    1 ≤ (WrappedFunction p f rand start fuel).triesMade
    ∧ (∀ v, f 0 = .ok v → WrappedFunction p f rand start fuel = .success v 1) := by
  obtain ⟨fuel, rfl⟩ : ∃ k, fuel = k + 1 := ⟨fuel - 1, by omega⟩
  constructor
  · unfold WrappedFunction
    rw [retryAux]
    cases hf : f 0 with
    | ok v => simp [RetryOutcome.triesMade]
    | error e =>
      simp only
      split
      · simp [RetryOutcome.triesMade]
      · have := retryAux_triesMade_ge p f rand (deadlineOf p start) fuel
          (start + sleepTime p (rand 0)) 1
        simpa using this
  · intro v hv
    unfold WrappedFunction
    rw [retryAux, hv]

/-- Witness for C8: with timeout 0 and max retries 0, a first successful
attempt still runs and its value is returned after exactly one attempt. -/
theorem Retry_at_least_one_attempt_witness :
    1 ≤ (WrappedFunction ⟨1, 0, 0, 0⟩ (fun _ : Nat => (.ok 42 : Except String Nat))
          (fun _ => 0) 0 1).triesMade
    ∧ WrappedFunction ⟨1, 0, 0, 0⟩ (fun _ : Nat => (.ok 42 : Except String Nat))
          (fun _ => 0) 0 1 = .success 42 1 :=
  ⟨(Retry_at_least_one_attempt ⟨1, 0, 0, 0⟩ (fun _ => .ok 42) (fun _ => 0) 0 1
      (by decide)).1,
    (Retry_at_least_one_attempt ⟨1, 0, 0, 0⟩ (fun _ => .ok 42) (fun _ => 0) 0 1
      (by decide)).2 42 rfl⟩

/-- Unpacking failures never carry the shape-validation message: they are
unpack-arity `ValueError`s or `TypeError`s. -/
theorem pyUnpack2_error_ne_invalid (p : PyVal) (e : PyErr) :
    pyUnpack2 p = .error e → e ≠ .valueError invalidTupleMsg := by
  intro h heq
  subst heq
  unfold pyUnpack2 at h
  split at h <;> first
    | exact Except.noConfusion h
    | (split at h <;>
        (injection h with h
         exact absurd h (by decide)))
    | (injection h with h
       exact absurd h (by decide))

/-- The comprehension step of `RunThreaded` never raises the
shape-validation `ValueError`: its only failures come from unpacking. -/
theorem normalizeRest_ne_invalid :
    ∀ ps : List PyVal, normalizeRest ps ≠ .error (.valueError invalidTupleMsg) := by
  intro ps
  induction ps with
  | nil => exact fun h => Except.noConfusion h
  | cons p rest ih =>
    intro h
    rw [normalizeRest] at h
    split at h
    · rename_i e hu
      exact pyUnpack2_error_ne_invalid p e hu (by injection h)
    · rename_i ak hu
      split at h
      · rename_i e2 hn
        refine ih (hn.trans ?_)
        injection h with h
        rw [h]
      · exact Except.noConfusion h

/-- C9 counterexample: a batch whose second element is tuple-shaped and
does not match the `(sequence, mapping)` pattern is not rejected — the
normalization succeeds because only the first element is inspected, so the
claim as stated (validation of every tuple-shaped element) is false on the
code. -/
theorem RunThreadedNormalize_later_tuple_not_rejected :
    RunThreadedNormalize (.pylist [.int 42, .tuple [.int 1, .int 2]])
      = .ok [⟨.tuple [.int 42], .dict []⟩,
          ⟨.tuple [.tuple [.int 1, .int 2]], .dict []⟩] := rfl

/-- C9 amended: `RunThreaded` raises the `ValueError` synchronously, before
any worker starts, when `thread_params` is not a list, and when the FIRST
element is a tuple that fails the `(tuple, dict)` shape check — the check
reads `thread_params[0][0]` first and `thread_params[0][1]` only if the
first component is a tuple; later elements are not validated. -/
theorem RunThreadedNormalize_first_element_validation :
    (∀ tp : PyVal, tp.isList = false →
        RunThreadedNormalize tp = .error (.valueError threadParamsNotListMsg))
    ∧ (∀ (p0 : PyVal) (rest : List PyVal) (x0 : PyVal),
        p0.isTuple = true → pySubscript p0 0 = .ok x0 → x0.isTuple = false →
        RunThreadedNormalize (.pylist (p0 :: rest))
          = .error (.valueError invalidTupleMsg))
    ∧ (∀ (p0 : PyVal) (rest : List PyVal) (x0 x1 : PyVal),
        p0.isTuple = true → pySubscript p0 0 = .ok x0 → x0.isTuple = true →
        pySubscript p0 1 = .ok x1 → x1.isDict = false →
        RunThreadedNormalize (.pylist (p0 :: rest))
          = .error (.valueError invalidTupleMsg)) := by
  refine ⟨?_, ?_, ?_⟩
  · intro tp h
    cases tp <;> first
      | rfl
      | simp [PyVal.isList] at h
  · intro p0 rest x0 ht hsub hxt
    simp [RunThreadedNormalize, ht, hsub, hxt]
  · intro p0 rest x0 x1 ht hsub0 hx0 hsub1 hx1
    simp [RunThreadedNormalize, ht, hsub0, hx0, hsub1, hx1]

/-- Witness for the amended C9: a non-list input, a first-element tuple
whose first item is not a tuple, and a first-element tuple whose second
item is not a dict are all rejected with the respective `ValueError`s. -/
theorem RunThreadedNormalize_first_element_validation_witness :
    PyVal.isList (.int 3) = false
    ∧ RunThreadedNormalize (.int 3) = .error (.valueError threadParamsNotListMsg)
    ∧ RunThreadedNormalize (.pylist [.tuple [.int 1], .int 9])
        = .error (.valueError invalidTupleMsg)
    ∧ RunThreadedNormalize (.pylist [.tuple [.tuple [], .int 5]])
        = .error (.valueError invalidTupleMsg) := by
  refine ⟨rfl, ?_, ?_, ?_⟩
  · exact RunThreadedNormalize_first_element_validation.1 (.int 3) rfl
  · exact RunThreadedNormalize_first_element_validation.2.1
      (.tuple [.int 1]) [.int 9] (.int 1) rfl rfl rfl
  · exact RunThreadedNormalize_first_element_validation.2.2
      (.tuple [.tuple [], .int 5]) [] (.tuple []) (.int 5) rfl rfl rfl rfl rfl

/-- C10: the shape validation of `RunThreaded` inspects only the first
element: when the first element is not a tuple, every element — including
later tuple-shaped ones — is wrapped unchecked as the sole positional
argument; and when the first element is a well-formed `(tuple, dict)` pair,
normalization never raises the shape-validation `ValueError` whatever the
later elements are. -/
theorem RunThreadedNormalize_only_first_element_checked :
    (∀ (p0 : PyVal) (rest : List PyVal), p0.isTuple = false →
        RunThreadedNormalize (.pylist (p0 :: rest))
          = .ok ((p0 :: rest).map (fun arg => ⟨.tuple [arg], .dict []⟩)))
    ∧ (∀ (args : List PyVal) (kwargs : List (PyVal × PyVal)) (rest : List PyVal),
        RunThreadedNormalize (.pylist (.tuple [.tuple args, .dict kwargs] :: rest))
          ≠ .error (.valueError invalidTupleMsg)) := by
  constructor
  · intro p0 rest h
    rw [RunThreadedNormalize, if_pos (by simp [h])]
  · intro args kwargs rest
    have hred : RunThreadedNormalize (.pylist (.tuple [.tuple args, .dict kwargs] :: rest))
        = normalizeRest (.tuple [.tuple args, .dict kwargs] :: rest) := rfl
    rw [hred]
    exact normalizeRest_ne_invalid _

/-- Witness for C10: a batch led by a bare value wraps a later malformed
tuple without complaint, and a batch led by a well-formed pair does not
raise the shape `ValueError` despite a later malformed pair. -/
theorem RunThreadedNormalize_only_first_element_checked_witness :
    RunThreadedNormalize (.pylist [.int 7, .tuple [.int 1, .int 2]])
      = .ok [⟨.tuple [.int 7], .dict []⟩,
          ⟨.tuple [.tuple [.int 1, .int 2]], .dict []⟩]
    ∧ RunThreadedNormalize
        (.pylist [.tuple [.tuple [], .dict []], .tuple [.int 1, .int 2]])
        ≠ .error (.valueError invalidTupleMsg) := by
  constructor
  · exact (RunThreadedNormalize_only_first_element_checked.1 (.int 7)
      [.tuple [.int 1, .int 2]] rfl).trans rfl
  · exact RunThreadedNormalize_only_first_element_checked.2 [] []
      [.tuple [.int 1, .int 2]]

end VmUtil
